import Mathlib

/-!
Shallow embedding of the ETH price converter (`src/PartB/src/main.go`).

The Go program fetches ETH/USD quotes from five HTTP APIs, averages the
successful quotes, and rescales the average into AUD via one further
exchange-rate request.  Go `float64` arithmetic is embedded as exact
rational arithmetic over `ℚ`; HTTP traffic is embedded as explicit
`Transport` values (a transport failure, or a status code with a body);
JSON bodies are embedded as a `Json` value or a syntactically invalid
blob.  Every Go function touched by the claims has a Lean counterpart
with the same name where Lean allows it.
-/

namespace AudToEth

/-- A JSON value, as produced by `encoding/json`. -/
inductive Json where
  | null : Json
  | bool (b : Bool) : Json
  | num (q : ℚ) : Json
  | str (s : String) : Json
  | arr (elems : List Json) : Json
  | obj (fields : List (String × Json)) : Json

/-- An HTTP response body: either bytes that are not valid JSON
(`json.Unmarshal` / `Decode` reports a syntax error on them), or a JSON
value. -/
inductive Body where
  | invalid : Body
  | json (j : Json) : Body

/-- What one `http.Client.Get` call produced: a transport-level error
(connection failure or timeout), or a response with a status code and a
body. -/
inductive Transport where
  | failure : Transport
  | response (status : Nat) (body : Body) : Transport

/-- The error categories of the Go program, one per `fmt.Errorf` site
(spec section 7 taxonomy). -/
inductive Failure where
  | NetworkFailure : Failure
  | HTTPStatusFailure (status : Nat) : Failure
  | DecodeFailure : Failure
  | InvalidValueFailure : Failure
  | NoValidPricesFailure : Failure
  | RateFetchFailure : Failure
  | InvalidRateFailure : Failure
deriving DecidableEq, Repr

/-- Outcome of `parseResponse`: a decoded price, a returned Go `error`,
or a runtime panic (Go faults on an out-of-range slice index). -/
inductive ParseOutcome where
  | ok (price : ℚ) : ParseOutcome
  | err : ParseOutcome
  | panic : ParseOutcome
deriving DecidableEq, Repr

/-- Outcome of `FetchPrice`: price, categorized error, or panic. -/
inductive FetchOutcome where
  | ok (price : ℚ) : FetchOutcome
  | err (f : Failure) : FetchOutcome
  | panic : FetchOutcome
deriving DecidableEq, Repr

/-- `PriceResult` struct from main.go lines 22-26: price, error and the
source name.  `err = none` is Go's `err == nil`. -/
structure PriceResult where
  price : ℚ
  err : Option Failure
  name : String
deriving DecidableEq, Repr

/-- Look a key up in a decoded JSON object (assoc list). -/
def jLookup (fields : List (String × Json)) (k : String) : Option Json :=
  (fields.find? (fun p => p.1 == k)).map (fun p => p.2)

/-- Go map read `m[k]` on a `map[string]float64`: the zero value `0`
when the key is absent. -/
def qLookup (m : List (String × ℚ)) (k : String) : ℚ :=
  ((m.find? (fun p => p.1 == k)).map (fun p => p.2)).getD 0

/-- Go map read `m[k]` on a `map[string]string`: `""` when absent. -/
def sLookup (m : List (String × String)) (k : String) : String :=
  ((m.find? (fun p => p.1 == k)).map (fun p => p.2)).getD ""

/-- Go map read `m[k]` on a `map[string]map[string]float64`: the nil
(empty) map when the key is absent; reading from a nil map yields the
zero value. -/
def mLookup (m : List (String × List (String × ℚ))) (k : String) :
    List (String × ℚ) :=
  ((m.find? (fun p => p.1 == k)).map (fun p => p.2)).getD []

/-- Unmarshal a JSON value into a Go `float64`: numbers decode, `null`
is a no-op leaving the zero value, everything else errors. -/
def decodeQ : Json → Option ℚ
  | Json.null => some 0
  | Json.num q => some q
  | _ => none

/-- Unmarshal a JSON value into a Go `string`. -/
def decodeS : Json → Option String
  | Json.null => some ""
  | Json.str s => some s
  | _ => none

/-- Unmarshal into `map[string]float64`. -/
def decodeStringQMap : Json → Option (List (String × ℚ))
  | Json.null => some []
  | Json.obj fs => fs.mapM (fun p => (decodeQ p.2).map (fun q => (p.1, q)))
  | _ => none

/-- Unmarshal into `map[string]map[string]float64` (CoinGecko body and
the exchange-rate body, main.go lines 98 and 188). -/
def decodeNestedQMap : Json → Option (List (String × List (String × ℚ)))
  | Json.null => some []
  | Json.obj fs =>
    fs.mapM (fun p => (decodeStringQMap p.2).map (fun m => (p.1, m)))
  | _ => none

/-- Unmarshal into `map[string]string` (Bitstamp body, line 118). -/
def decodeStringStringMap : Json → Option (List (String × String))
  | Json.null => some []
  | Json.obj fs => fs.mapM (fun p => (decodeS p.2).map (fun s => (p.1, s)))
  | _ => none

/-- Unmarshal into `[]string`. -/
def decodeStringList : Json → Option (List String)
  | Json.null => some []
  | Json.arr xs => xs.mapM decodeS
  | _ => none

/-- Unmarshal into `[]float64` (Bitfinex body, line 145). -/
def decodeQList : Json → Option (List ℚ)
  | Json.null => some []
  | Json.arr xs => xs.mapM decodeQ
  | _ => none

/-- Unmarshal into the Coinbase target struct (lines 104-108),
extracting the `data.amount` string; absent fields keep the zero value
`""`, fields of the wrong shape error, unknown fields are ignored. -/
def decodeCoinbaseAmount : Json → Option String
  | Json.null => some ""
  | Json.obj fs =>
    match jLookup fs "data" with
    | none => some ""
    | some Json.null => some ""
    | some (Json.obj dfs) =>
      match jLookup dfs "amount" with
      | none => some ""
      | some aj => decodeS aj
    | some _ => none
  | _ => none

/-- Unmarshal one Kraken `result` entry, the struct with field
`C []string` tagged `"c"` (lines 129-131). -/
def decodeKrakenEntry : Json → Option (List String)
  | Json.null => some []
  | Json.obj fs =>
    match jLookup fs "c" with
    | none => some []
    | some cj => decodeStringList cj
  | _ => none

/-- Unmarshal the Kraken target struct (lines 128-132): field `Result`
tagged `"result"`, a map from pair identifier to the entry struct. -/
def decodeKrakenResult : Json → Option (List (String × List String))
  | Json.null => some []
  | Json.obj fs =>
    match jLookup fs "result" with
    | none => some []
    | some Json.null => some []
    | some (Json.obj rfs) =>
      rfs.mapM (fun p => (decodeKrakenEntry p.2).map (fun c => (p.1, c)))
    | some _ => none
  | _ => none

/-- Digit character to its value. -/
def digitVal (c : Char) : Option Nat :=
  if c.isDigit then some (c.toNat - 48) else none

/-- Accumulate a digit run into a natural number; fails on a
non-digit. -/
def parseDigits (cs : List Char) : Option Nat :=
  cs.foldlM (fun acc c => (digitVal c).map (fun d => acc * 10 + d)) 0

/-- A float64 value as `strconv.ParseFloat` can produce one: NaN, an
infinity, or a finite value (embedded exactly as a rational; the
rounding of a finite decimal to the nearest float64 is not modelled). -/
inductive FloatVal where
  | nan : FloatVal
  | inf : FloatVal
  | neginf : FloatVal
  | rat (q : ℚ) : FloatVal
deriving DecidableEq, Repr

/-- ASCII lower-casing of one character, as the case-insensitive prefix
comparison inside `strconv.ParseFloat` treats letters. -/
def lowerChar (c : Char) : Char :=
  if 65 ≤ c.toNat ∧ c.toNat ≤ 90 then Char.ofNat (c.toNat + 32) else c

/-- ASCII lower-casing of a character list. -/
def lowerList (cs : List Char) : List Char := cs.map lowerChar

/-- The finite-number grammar of `strconv.ParseFloat`: optional sign,
digits with an optional fraction (at least one digit overall), and an
optional decimal exponent.  The whole input must be consumed; the empty
string and any non-numeric text fail as in Go.  Hex floats, underscore
separators and the float64 overflow-to-infinity range error are not
modelled — no embedded payload or claim exercises them. -/
def parseDecimal (cs : List Char) : Option ℚ :=
  let sgn : Bool × List Char :=
    match cs with
    | '-' :: rest => (true, rest)
    | '+' :: rest => (false, rest)
    | _ => (false, cs)
  let ds := sgn.2
  let ip := ds.takeWhile Char.isDigit
  let r1 := ds.dropWhile Char.isDigit
  let fr : List Char × List Char :=
    match r1 with
    | '.' :: r => (r.takeWhile Char.isDigit, r.dropWhile Char.isDigit)
    | _ => ([], r1)
  let fp := fr.1
  let r2 := fr.2
  if ip.isEmpty && fp.isEmpty then none
  else
    let eexp : Option (Bool × Nat) :=
      match r2 with
      | [] => some (false, 0)
      | c :: r3 =>
        if c = 'e' ∨ c = 'E' then
          let es : Bool × List Char :=
            match r3 with
            | '-' :: r4 => (true, r4)
            | '+' :: r4 => (false, r4)
            | _ => (false, r3)
          if es.2.isEmpty then none
          else if es.2.all Char.isDigit then
            (parseDigits es.2).map (fun n => (es.1, n))
          else none
        else none
    eexp.bind (fun e =>
      (parseDigits ip).bind (fun n =>
        (parseDigits fp).map (fun f =>
          let mag := (n : ℚ) + (f : ℚ) / ((10 : ℚ) ^ fp.length)
          let signedMag := if sgn.1 then -mag else mag
          if e.1 then signedMag / ((10 : ℚ) ^ e.2)
          else signedMag * ((10 : ℚ) ^ e.2))))

/-- `strconv.ParseFloat` over the full float64 domain: the special
spellings `NaN`, `Inf`/`Infinity` (optionally signed), all compared
case-insensitively and only when they consume the whole string, and
otherwise the finite-number grammar. -/
def parseFloat64 (s : String) : Option FloatVal :=
  let l := lowerList s.toList
  if l = ['n', 'a', 'n'] then some FloatVal.nan
  else if l = ['i', 'n', 'f'] ∨ l = ['+', 'i', 'n', 'f'] ∨
      l = ['i', 'n', 'f', 'i', 'n', 'i', 't', 'y'] ∨
      l = ['+', 'i', 'n', 'f', 'i', 'n', 'i', 't', 'y'] then
    some FloatVal.inf
  else if l = ['-', 'i', 'n', 'f'] ∨
      l = ['-', 'i', 'n', 'f', 'i', 'n', 'i', 't', 'y'] then
    some FloatVal.neginf
  else (parseDecimal s.toList).map FloatVal.rat

/-- The finite fragment of `parseFloat64`, used by the rational-valued
pipeline embedding: a string whose Go parse is NaN or an infinity —
values ℚ cannot carry — is mapped to a parse failure here.  That known
divergence (Go instead returns the special value, and NaN then slips
past the `price <= 0` guard) is modelled exactly by the FloatVal-domain
functions `parseResponseF`, `FetchPriceF` and `runFetchersF` below,
which the positivity claim is settled against. -/
def parseFloat (s : String) : Option ℚ :=
  match parseFloat64 s with
  | some (FloatVal.rat q) => some q
  | _ => none

/-- `parseResponse` from main.go lines 95-157: the per-provider switch
over the API name, decoding the body into a price.  Returns `.err` where
the Go code returns a non-nil error, `.panic` where it faults (the
unchecked `v.C[0]` index in the Kraken branch, line 138).  Go's map
iteration order in the Kraken branch is arbitrary; the embedding takes
the first decoded entry, which is exact for the at-most-one-entry maps
the claims exercise. -/
def parseResponse (name : String) (body : Body) : ParseOutcome :=
  match name with
  | "CoinGecko" =>
    match body with
    | Body.invalid => ParseOutcome.err
    | Body.json j =>
      match decodeNestedQMap j with
      | none => ParseOutcome.err
      | some data => ParseOutcome.ok (qLookup (mLookup data "ethereum") "usd")
  | "Coinbase" =>
    match body with
    | Body.invalid => ParseOutcome.err
    | Body.json j =>
      match decodeCoinbaseAmount j with
      | none => ParseOutcome.err
      | some amount =>
        match parseFloat amount with
        | none => ParseOutcome.err
        | some q => ParseOutcome.ok q
  | "Bitstamp" =>
    match body with
    | Body.invalid => ParseOutcome.err
    | Body.json j =>
      match decodeStringStringMap j with
      | none => ParseOutcome.err
      | some data =>
        match parseFloat (sLookup data "last") with
        | none => ParseOutcome.err
        | some q => ParseOutcome.ok q
  | "Kraken" =>
    match body with
    | Body.invalid => ParseOutcome.err
    | Body.json j =>
      match decodeKrakenResult j with
      | none => ParseOutcome.err
      | some entries =>
        match entries with
        | [] => ParseOutcome.ok 0
        | (_, c) :: _ =>
          match c with
          | [] => ParseOutcome.panic
          | s :: _ =>
            match parseFloat s with
            | none => ParseOutcome.err
            | some q => ParseOutcome.ok q
  | "Bitfinex" =>
    match body with
    | Body.invalid => ParseOutcome.err
    | Body.json j =>
      match decodeQList j with
      | none => ParseOutcome.err
      | some data =>
        if data.length < 7 then ParseOutcome.err
        else ParseOutcome.ok (data.getD 6 0)
  | _ => ParseOutcome.err

/-- `FetchPrice` from main.go lines 60-89: transport error, then the
status check (line 71, `!= 200`), then `parseResponse`, then the
positivity check (line 85, `price <= 0`). -/
def FetchPrice (name : String) (t : Transport) : FetchOutcome :=
  match t with
  | Transport.failure => FetchOutcome.err Failure.NetworkFailure
  | Transport.response status body =>
    if status ≠ 200 then FetchOutcome.err (Failure.HTTPStatusFailure status)
    else
      match parseResponse name body with
      | ParseOutcome.panic => FetchOutcome.panic
      | ParseOutcome.err => FetchOutcome.err Failure.DecodeFailure
      | ParseOutcome.ok price =>
        if price ≤ 0 then FetchOutcome.err Failure.InvalidValueFailure
        else FetchOutcome.ok price

/-- Outcome of `parseResponse` over the full float64 domain. -/
inductive ParseOutcomeF where
  | ok (price : FloatVal) : ParseOutcomeF
  | err : ParseOutcomeF
  | panic : ParseOutcomeF
deriving DecidableEq, Repr

/-- Outcome of `FetchPrice` over the full float64 domain. -/
inductive FetchOutcomeF where
  | ok (price : FloatVal) : FetchOutcomeF
  | err (f : Failure) : FetchOutcomeF
  | panic : FetchOutcomeF
deriving DecidableEq, Repr

/-- The Go comparison `price <= 0` under IEEE semantics: false for NaN
(every ordered comparison with NaN is false) and for positive infinity,
true for negative infinity, the rational comparison for finite
values. -/
def leZeroF : FloatVal → Bool
  | FloatVal.nan => false
  | FloatVal.inf => false
  | FloatVal.neginf => true
  | FloatVal.rat q => decide (q ≤ 0)

/-- Strict positivity of a float64 value: NaN is not positive. -/
def floatPos : FloatVal → Bool
  | FloatVal.nan => false
  | FloatVal.inf => true
  | FloatVal.neginf => false
  | FloatVal.rat q => decide (0 < q)

/-- `parseResponse` (main.go lines 95-157) over the full float64 domain:
identical to `parseResponse` except that the string-to-float branches
use the complete `parseFloat64`, so NaN and infinity spellings decode to
the corresponding special value as in Go.  JSON number literals are
always finite. -/
def parseResponseF (name : String) (body : Body) : ParseOutcomeF :=
  match name with
  | "CoinGecko" =>
    match body with
    | Body.invalid => ParseOutcomeF.err
    | Body.json j =>
      match decodeNestedQMap j with
      | none => ParseOutcomeF.err
      | some data =>
        ParseOutcomeF.ok (FloatVal.rat (qLookup (mLookup data "ethereum") "usd"))
  | "Coinbase" =>
    match body with
    | Body.invalid => ParseOutcomeF.err
    | Body.json j =>
      match decodeCoinbaseAmount j with
      | none => ParseOutcomeF.err
      | some amount =>
        match parseFloat64 amount with
        | none => ParseOutcomeF.err
        | some v => ParseOutcomeF.ok v
  | "Bitstamp" =>
    match body with
    | Body.invalid => ParseOutcomeF.err
    | Body.json j =>
      match decodeStringStringMap j with
      | none => ParseOutcomeF.err
      | some data =>
        match parseFloat64 (sLookup data "last") with
        | none => ParseOutcomeF.err
        | some v => ParseOutcomeF.ok v
  | "Kraken" =>
    match body with
    | Body.invalid => ParseOutcomeF.err
    | Body.json j =>
      match decodeKrakenResult j with
      | none => ParseOutcomeF.err
      | some entries =>
        match entries with
        | [] => ParseOutcomeF.ok (FloatVal.rat 0)
        | (_, c) :: _ =>
          match c with
          | [] => ParseOutcomeF.panic
          | s :: _ =>
            match parseFloat64 s with
            | none => ParseOutcomeF.err
            | some v => ParseOutcomeF.ok v
  | "Bitfinex" =>
    match body with
    | Body.invalid => ParseOutcomeF.err
    | Body.json j =>
      match decodeQList j with
      | none => ParseOutcomeF.err
      | some data =>
        if data.length < 7 then ParseOutcomeF.err
        else ParseOutcomeF.ok (FloatVal.rat (data.getD 6 0))
  | _ => ParseOutcomeF.err

/-- `FetchPrice` (main.go lines 60-89) over the full float64 domain: the
`price <= 0` guard of line 85 is the IEEE comparison `leZeroF`, which a
NaN price passes. -/
def FetchPriceF (name : String) (t : Transport) : FetchOutcomeF :=
  match t with
  | Transport.failure => FetchOutcomeF.err Failure.NetworkFailure
  | Transport.response status body =>
    if status ≠ 200 then FetchOutcomeF.err (Failure.HTTPStatusFailure status)
    else
      match parseResponseF name body with
      | ParseOutcomeF.panic => FetchOutcomeF.panic
      | ParseOutcomeF.err => FetchOutcomeF.err Failure.DecodeFailure
      | ParseOutcomeF.ok price =>
        if leZeroF price then FetchOutcomeF.err Failure.InvalidValueFailure
        else FetchOutcomeF.ok price

/-- `PriceResult` over the full float64 domain. -/
structure PriceResultF where
  price : FloatVal
  err : Option Failure
  name : String
deriving DecidableEq, Repr

/-- The collection step of `fetchAndCalculatePrice` over the full
float64 domain, mirroring `runFetchers`. -/
def runFetchersF : List (String × Transport) → Option (List PriceResultF)
  | [] => some []
  | f :: fs =>
    match FetchPriceF f.1 f.2 with
    | FetchOutcomeF.ok p =>
      (runFetchersF fs).map (fun rs => PriceResultF.mk p none f.1 :: rs)
    | FetchOutcomeF.err e =>
      (runFetchersF fs).map
        (fun rs => PriceResultF.mk (FloatVal.rat 0) (some e) f.1 :: rs)
    | FetchOutcomeF.panic => none

/-- The summing loop of `calculateAverageAndConvertToAUD`, main.go lines
161-170: accumulate the price and bump the count for each result whose
error is nil. -/
def sumAndCount (results : List PriceResult) : ℚ × Nat :=
  results.foldl
    (fun acc r => if r.err.isNone then (acc.1 + r.price, acc.2 + 1) else acc)
    (0, 0)

/-- The aggregation stage of `calculateAverageAndConvertToAUD`, main.go
lines 160-176: fail when no result was valid, otherwise the mean of the
valid prices. -/
def calculateAverageUSD (results : List PriceResult) : Except Failure ℚ :=
  if (sumAndCount results).2 = 0 then Except.error Failure.NoValidPricesFailure
  else Except.ok ((sumAndCount results).1 / ((sumAndCount results).2 : ℚ))

/-- The exchange-rate fetch of `calculateAverageAndConvertToAUD`,
main.go lines 179-191: a transport error or a body that fails to decode
is fatal; the status code of the response is never examined. -/
def fetchExchangeRates (t : Transport) :
    Except Failure (List (String × List (String × ℚ))) :=
  match t with
  | Transport.failure => Except.error Failure.RateFetchFailure
  | Transport.response _ Body.invalid => Except.error Failure.RateFetchFailure
  | Transport.response _ (Body.json j) =>
    match decodeNestedQMap j with
    | none => Except.error Failure.RateFetchFailure
    | some data => Except.ok data

/-- The local `usdRate` of main.go line 194: the quote-currency rate
read from the decoded exchange-rate body, zero when absent. -/
def usdRate (data : List (String × List (String × ℚ))) : ℚ :=
  qLookup (mLookup data "ethereum") "usd"

/-- The local `audRate` of main.go line 195: the target-currency rate
read from the decoded exchange-rate body, zero when absent. -/
def audRate (data : List (String × List (String × ℚ))) : ℚ :=
  qLookup (mLookup data "ethereum") "aud"

/-- The conversion tail of `calculateAverageAndConvertToAUD`, main.go
lines 193-204: read the usd and aud rates (zero when absent), reject a
zero rate, rescale the mean by `audRate / usdRate`. -/
def convertUSDToAUD (averageUSD : ℚ)
    (data : List (String × List (String × ℚ))) : Except Failure ℚ :=
  if usdRate data = 0 ∨ audRate data = 0 then
    Except.error Failure.InvalidRateFailure
  else Except.ok (averageUSD * (audRate data / usdRate data))

/-- `calculateAverageAndConvertToAUD`, main.go lines 160-205, with the
exchange-rate HTTP exchange made an explicit argument: aggregate first,
then fetch and apply the rate. -/
def calculateAverageAndConvertToAUD (results : List PriceResult)
    (rateT : Transport) : Except Failure ℚ :=
  match calculateAverageUSD results with
  | Except.error e => Except.error e
  | Except.ok avg =>
    match fetchExchangeRates rateT with
    | Except.error e => Except.error e
    | Except.ok data => convertUSDToAUD avg data

/-- The collection step of `fetchAndCalculatePrice`, main.go lines
220-249: one goroutine per fetcher sends exactly one `PriceResult` (the
price with a nil error, or the zero price with the error) into a channel
sized to the fetcher count; after the `WaitGroup` barrier all results
are drained.  A panicking fetch kills the process, so the gathered list
exists only when no fetch panics (`none` otherwise).  The channel may
deliver results in any order; the embedding fixes the launch order,
which the aggregation below is proved insensitive to. -/
def runFetchers : List (String × Transport) → Option (List PriceResult)
  | [] => some []
  | f :: fs =>
    match FetchPrice f.1 f.2 with
    | FetchOutcome.ok p =>
      (runFetchers fs).map (fun rs => PriceResult.mk p none f.1 :: rs)
    | FetchOutcome.err e =>
      (runFetchers fs).map (fun rs => PriceResult.mk 0 (some e) f.1 :: rs)
    | FetchOutcome.panic => none

/-- The number of fetchers whose fetch resolves to a categorized
error. -/
def failedFetchCount (fetchers : List (String × Transport)) : Nat :=
  fetchers.countP (fun f =>
    match FetchPrice f.1 f.2 with
    | FetchOutcome.err _ => true
    | _ => false)

/-- `fetchAndCalculatePrice`, main.go lines 211-252, over an arbitrary
fetcher list with explicit network inputs. -/
def fetchAndCalculatePrice (fetchers : List (String × Transport))
    (rateT : Transport) : Option (Except Failure ℚ) :=
  (runFetchers fetchers).map
    (fun rs => calculateAverageAndConvertToAUD rs rateT)

/-- Spec-side definition (section 4.3 / 8): the prices of the successful
outcomes, in order. -/
def successfulPrices (results : List PriceResult) : List ℚ :=
  (results.filter (fun r => r.err.isNone)).map (fun r => r.price)

/-- Spec-side definition: the number of successful outcomes. -/
def successCount (results : List PriceResult) : Nat :=
  results.countP (fun r => r.err.isNone)

/-- The summing loop computes the sum and the count of the successful
prices, from any starting accumulator. -/
theorem sumAndCount_go (results : List PriceResult) (s : ℚ) (c : Nat) :
    results.foldl
      (fun acc r => if r.err.isNone then (acc.1 + r.price, acc.2 + 1) else acc)
      (s, c)
      = (s + (successfulPrices results).sum, c + successCount results) := by
  induction results generalizing s c with
  | nil => simp [successfulPrices, successCount]
  | cons r rs ih =>
    simp only [List.foldl_cons]
    by_cases h : r.err.isNone
    · rw [if_pos h, ih]
      simp only [successfulPrices, successCount, List.filter_cons, h, if_pos,
        List.map_cons, List.sum_cons, List.countP_cons, Prod.mk.injEq]
      constructor
      · ring
      · omega
    · rw [if_neg h, ih]
      simp only [successfulPrices, successCount, List.filter_cons,
        Bool.eq_false_iff.mpr h, if_neg, List.countP_cons, Prod.mk.injEq]
      simp [h]

/-- The summing loop of the aggregator equals the filtered sum and
count. -/
theorem sumAndCount_eq (results : List PriceResult) :
    sumAndCount results
      = ((successfulPrices results).sum, successCount results) := by
  have h := sumAndCount_go results 0 0
  simpa [sumAndCount] using h

/-- C1: on a collection of PriceOutcomes with at least one successful
outcome, the aggregation stage of `calculateAverageAndConvertToAUD`
returns the arithmetic mean of the successful prices — the sum of the
prices of the outcomes with a nil error divided by their count — and
every failed outcome is ignored. -/
theorem aggregator_returns_mean (results : List PriceResult)
    (h : ∃ r ∈ results, r.err = none) :
    calculateAverageUSD results
      = Except.ok
          ((successfulPrices results).sum / (successCount results : ℚ)) := by
  have hc : 0 < successCount results := by
    obtain ⟨r, hr, he⟩ := h
    exact List.countP_pos_iff.mpr ⟨r, hr, by simp [he]⟩
  rw [calculateAverageUSD, sumAndCount_eq]
  simp [Nat.pos_iff_ne_zero.mp hc]

/-- Witness for C1: three successes at 2990, 3010, 3000 and one failure
average to 3000; the failed outcome's carried price 999999 is
ignored. -/
theorem aggregator_returns_mean_witness :
    calculateAverageUSD
      [PriceResult.mk 2990 none "a",
       PriceResult.mk 999999 (some Failure.DecodeFailure) "b",
       PriceResult.mk 3010 none "c",
       PriceResult.mk 3000 none "d"]
      = Except.ok 3000 := by
  have h := aggregator_returns_mean
    [PriceResult.mk 2990 none "a",
     PriceResult.mk 999999 (some Failure.DecodeFailure) "b",
     PriceResult.mk 3010 none "c",
     PriceResult.mk 3000 none "d"]
    (by decide)
  rw [h]
  simp [successfulPrices, successCount]
  norm_num

/-- C6: the aggregation stage of `calculateAverageAndConvertToAUD` is
invariant under every permutation of the input PriceOutcomes: two
orderings of the same collection produce the same result. -/
theorem aggregator_perm_invariant (l₁ l₂ : List PriceResult)
    (h : l₁.Perm l₂) :
    calculateAverageUSD l₁ = calculateAverageUSD l₂ := by
  have hsum : (successfulPrices l₁).sum = (successfulPrices l₂).sum :=
    List.Perm.sum_eq (List.Perm.map _ (List.Perm.filter _ h))
  have hcount : successCount l₁ = successCount l₂ :=
    List.Perm.countP_eq _ h
  rw [calculateAverageUSD, calculateAverageUSD, sumAndCount_eq,
    sumAndCount_eq, hsum, hcount]

/-- Witness for C6: reversing a concrete three-outcome collection leaves
the aggregation result unchanged. -/
theorem aggregator_perm_invariant_witness :
    calculateAverageUSD
      [PriceResult.mk 2990 none "a",
       PriceResult.mk 0 (some Failure.NetworkFailure) "b",
       PriceResult.mk 3010 none "c"]
      = calculateAverageUSD
          [PriceResult.mk 3010 none "c",
           PriceResult.mk 0 (some Failure.NetworkFailure) "b",
           PriceResult.mk 2990 none "a"] :=
  aggregator_perm_invariant _ _ (by decide)

/-- C4: on an empty collection, or one in which every outcome is a
failure, `calculateAverageAndConvertToAUD` fails with the
no-valid-prices error — whatever the exchange-rate exchange would have
returned — and in particular never returns any price. -/
theorem aggregator_all_failed (results : List PriceResult)
    (rateT : Transport) (h : ∀ r ∈ results, r.err.isSome) :
    calculateAverageAndConvertToAUD results rateT
        = Except.error Failure.NoValidPricesFailure ∧
      ∀ q : ℚ, calculateAverageAndConvertToAUD results rateT
        ≠ Except.ok q := by
  have hc : successCount results = 0 := by
    rw [successCount, List.countP_eq_zero]
    intro r hr
    have hs := h r hr
    cases he : r.err with
    | none => rw [he] at hs; simp at hs
    | some e => simp [he]
  have havg : calculateAverageUSD results
      = Except.error Failure.NoValidPricesFailure := by
    rw [calculateAverageUSD, sumAndCount_eq]
    simp [hc]
  constructor
  · rw [calculateAverageAndConvertToAUD, havg]
  · intro q
    rw [calculateAverageAndConvertToAUD, havg]
    simp

/-- Witness for C4: the empty collection and an all-failed collection
both produce the no-valid-prices error, under a concrete exchange-rate
exchange. -/
theorem aggregator_all_failed_witness :
    calculateAverageAndConvertToAUD [] Transport.failure
        = Except.error Failure.NoValidPricesFailure ∧
      calculateAverageAndConvertToAUD
        [PriceResult.mk 0 (some Failure.NetworkFailure) "a",
         PriceResult.mk 0 (some (Failure.HTTPStatusFailure 500)) "b"]
        Transport.failure
        = Except.error Failure.NoValidPricesFailure :=
  ⟨(aggregator_all_failed [] Transport.failure (by decide)).1,
   (aggregator_all_failed
     [PriceResult.mk 0 (some Failure.NetworkFailure) "a",
      PriceResult.mk 0 (some (Failure.HTTPStatusFailure 500)) "b"]
     Transport.failure (by decide)).1⟩

/-- C2: for every mean price and every decoded exchange-rate mapping,
the conversion tail of `calculateAverageAndConvertToAUD` returns
`meanPrice * (audRate / usdRate)` when both rates are nonzero, and fails
with the invalid-rate error when either rate is zero — which is also
what a missing rate reads as. -/
theorem rate_converter_correct (meanPrice : ℚ)
    (data : List (String × List (String × ℚ))) :
    (usdRate data ≠ 0 → audRate data ≠ 0 →
      convertUSDToAUD meanPrice data
        = Except.ok (meanPrice * (audRate data / usdRate data))) ∧
    (usdRate data = 0 ∨ audRate data = 0 →
      convertUSDToAUD meanPrice data
        = Except.error Failure.InvalidRateFailure) := by
  constructor
  · intro hu ha
    rw [convertUSDToAUD, if_neg (not_or.mpr ⟨hu, ha⟩)]
  · intro h
    rw [convertUSDToAUD, if_pos h]

/-- Witness for C2: quote rate 3000 and target rate 4500 give ratio 1.5
and scale a mean of 3000 to 4500; a zero target rate fails with the
invalid-rate error. -/
theorem rate_converter_correct_witness :
    convertUSDToAUD 3000 [("ethereum", [("usd", 3000), ("aud", 4500)])]
        = Except.ok 4500 ∧
      convertUSDToAUD 3000 [("ethereum", [("usd", 3000), ("aud", 0)])]
        = Except.error Failure.InvalidRateFailure := by
  constructor
  · have h := (rate_converter_correct 3000
      [("ethereum", [("usd", 3000), ("aud", 4500)])]).1 (by decide) (by decide)
    rw [h]
    simp [usdRate, audRate, qLookup, mLookup, List.find?]
    norm_num
  · exact (rate_converter_correct 3000
      [("ethereum", [("usd", 3000), ("aud", 0)])]).2 (Or.inr (by decide))

/-- C8: for every adapter name and every response body, a response whose
status code is not 200 fails with the HTTP-status error and never yields
a price. -/
theorem non_200_status_fails (name : String) (status : Nat) (body : Body)
    (h : status ≠ 200) :
    FetchPrice name (Transport.response status body)
        = FetchOutcome.err (Failure.HTTPStatusFailure status) ∧
      ∀ p : ℚ, FetchPrice name (Transport.response status body)
        ≠ FetchOutcome.ok p := by
  have hf : FetchPrice name (Transport.response status body)
      = FetchOutcome.err (Failure.HTTPStatusFailure status) := by
    simp [FetchPrice, h]
  exact ⟨hf, fun p hp => by rw [hf] at hp; exact FetchOutcome.noConfusion hp⟩

/-- Witness for C8: a 404 response fails with the HTTP-status error. -/
theorem non_200_status_fails_witness :
    FetchPrice "CoinGecko" (Transport.response 404 Body.invalid)
      = FetchOutcome.err (Failure.HTTPStatusFailure 404) :=
  (non_200_status_fails "CoinGecko" 404 Body.invalid (by decide)).1

/-- Every value `FetchPriceF` returns has survived the IEEE `price <= 0`
guard of main.go line 85, so it does not compare at most zero — but it
may be NaN, which also fails that comparison. -/
theorem fetchPriceF_ok_not_le_zero (name : String) (t : Transport)
    (v : FloatVal) (hp : FetchPriceF name t = FetchOutcomeF.ok v) :
    leZeroF v = false := by
  cases t with
  | failure => simp [FetchPriceF] at hp
  | response status b =>
    simp only [FetchPriceF] at hp
    by_cases hs : status ≠ 200
    · rw [if_pos hs] at hp
      exact absurd hp (by simp)
    · rw [if_neg hs] at hp
      cases hpr : parseResponseF name b with
      | panic => rw [hpr] at hp; exact absurd hp (by simp)
      | err => rw [hpr] at hp; exact absurd hp (by simp)
      | ok w =>
        rw [hpr] at hp
        dsimp only at hp
        by_cases hw : leZeroF w
        · rw [if_pos hw] at hp
          exact absurd hp (by simp)
        · rw [if_neg hw] at hp
          injection hp with hwv
          rw [← hwv]
          simpa using hw

/-- Every successful PriceResultF the collection step gathers carries
the value of a successful `FetchPriceF`, hence one that does not compare
at most zero. -/
theorem runFetchersF_success_not_le_zero
    (fetchers : List (String × Transport)) (results : List PriceResultF)
    (r : PriceResultF) (h : runFetchersF fetchers = some results)
    (hr : r ∈ results) (he : r.err = none) : leZeroF r.price = false := by
  induction fetchers generalizing results with
  | nil =>
    rw [runFetchersF] at h
    cases h
    simp at hr
  | cons f fs ih =>
    rw [runFetchersF] at h
    cases hf : FetchPriceF f.1 f.2 with
    | ok p =>
      rw [hf] at h
      obtain ⟨rs, hrs, hcons⟩ := Option.map_eq_some'.mp h
      rw [← hcons] at hr
      rcases List.mem_cons.mp hr with h1 | h2
      · rw [h1]
        exact fetchPriceF_ok_not_le_zero f.1 f.2 p hf
      · exact ih rs hrs h2
    | err e =>
      rw [hf] at h
      obtain ⟨rs, hrs, hcons⟩ := Option.map_eq_some'.mp h
      rw [← hcons] at hr
      rcases List.mem_cons.mp hr with h1 | h2
      · rw [h1] at he
        simp at he
      · exact ih rs hrs h2
    | panic =>
      rw [hf] at h
      exact absurd h (by simp)

/-- C9 counterexample: the Bitstamp adapter, on a 200 response whose
body maps "last" to the string "NaN", succeeds — `strconv.ParseFloat`
accepts the NaN spelling and the IEEE comparison `NaN <= 0` is false, so
the line-85 guard does not fire — and the gathered PriceOutcome carries
a nil error with the NaN price, which is not strictly positive.  This
refutes the claim that every carried price is strictly positive. -/
theorem nan_price_escapes_guard :
    FetchPriceF "Bitstamp"
        (Transport.response 200
          (Body.json (Json.obj [("last", Json.str "NaN")])))
        = FetchOutcomeF.ok FloatVal.nan ∧
      floatPos FloatVal.nan = false ∧
      runFetchersF
          [("Bitstamp", Transport.response 200
            (Body.json (Json.obj [("last", Json.str "NaN")])))]
        = some [PriceResultF.mk FloatVal.nan none "Bitstamp"] :=
  ⟨rfl, rfl, rfl⟩

/-- C9 amended: every adapter rejects with the invalid-value error any
decoded price that compares at most zero under IEEE ordering; every
value a fetch returns fails that comparison — strictly positive whenever
finite, but possibly NaN — and every gathered PriceOutcome with a nil
error likewise carries a value that is never at most zero and is
strictly positive whenever finite. -/
theorem adapter_price_positive_amended (name : String) (body : Body)
    (t : Transport) (fetchers : List (String × Transport)) :
    (∀ v : FloatVal, parseResponseF name body = ParseOutcomeF.ok v →
      leZeroF v = true →
      FetchPriceF name (Transport.response 200 body)
        = FetchOutcomeF.err Failure.InvalidValueFailure) ∧
    (∀ v : FloatVal, FetchPriceF name t = FetchOutcomeF.ok v →
      leZeroF v = false) ∧
    (∀ q : ℚ, FetchPriceF name t = FetchOutcomeF.ok (FloatVal.rat q) →
      0 < q) ∧
    (∀ (results : List PriceResultF) (r : PriceResultF),
      runFetchersF fetchers = some results → r ∈ results →
      r.err = none →
      leZeroF r.price = false ∧
        ∀ q : ℚ, r.price = FloatVal.rat q → 0 < q) := by
  refine ⟨?_, ?_, ?_, ?_⟩
  · intro v hv hle
    simp [FetchPriceF, hv, hle]
  · intro v hp
    exact fetchPriceF_ok_not_le_zero name t v hp
  · intro q hp
    have hz := fetchPriceF_ok_not_le_zero name t (FloatVal.rat q) hp
    simp [leZeroF] at hz
    exact hz
  · intro results r h hr he
    have hz := runFetchersF_success_not_le_zero fetchers results r h hr he
    refine ⟨hz, ?_⟩
    intro q hq
    rw [hq] at hz
    simp [leZeroF] at hz
    exact hz

/-- Witness for C9 amended: a decoded -5 is rejected with the
invalid-value error; the NaN fetch succeeds with a value failing the
at-most-zero comparison; a decoded 3000 is returned and positive; the
gathered successful outcome carries the positive price. -/
theorem adapter_price_positive_amended_witness :
    FetchPriceF "CoinGecko"
        (Transport.response 200
          (Body.json (Json.obj [("ethereum",
            Json.obj [("usd", Json.num (-5))])])))
        = FetchOutcomeF.err Failure.InvalidValueFailure ∧
      leZeroF FloatVal.nan = false ∧
      (0 : ℚ) < 3000 ∧
      leZeroF (PriceResultF.mk (FloatVal.rat 3000) none "CoinGecko").price
        = false :=
  ⟨(adapter_price_positive_amended "CoinGecko"
      (Body.json (Json.obj [("ethereum", Json.obj [("usd", Json.num (-5))])]))
      Transport.failure []).1 (FloatVal.rat (-5)) (by rfl) (by decide),
   (adapter_price_positive_amended "Bitstamp" Body.invalid
      (Transport.response 200
        (Body.json (Json.obj [("last", Json.str "NaN")])))
      []).2.1 FloatVal.nan
      (by rfl),
   (adapter_price_positive_amended "CoinGecko" Body.invalid
      (Transport.response 200
        (Body.json (Json.obj [("ethereum",
          Json.obj [("usd", Json.num 3000)])])))
      []).2.2.1 3000 (by rfl),
   ((adapter_price_positive_amended "CoinGecko" Body.invalid
      Transport.failure
      [("CoinGecko", Transport.response 200
        (Body.json (Json.obj [("ethereum",
          Json.obj [("usd", Json.num 3000)])])))]).2.2.2
      [PriceResultF.mk (FloatVal.rat 3000) none "CoinGecko"]
      (PriceResultF.mk (FloatVal.rat 3000) none "CoinGecko")
      (by rfl) (by simp) rfl).1⟩

/-- C10: the exchange-rate fetch never inspects the status code of its
response: any two status codes over the same body give the same result,
and a body that decodes as the expected mapping is accepted and returned
for every status value. -/
theorem rate_fetch_ignores_status (status : Nat) (body : Body) :
    (∀ s₁ s₂ : Nat,
      fetchExchangeRates (Transport.response s₁ body)
        = fetchExchangeRates (Transport.response s₂ body)) ∧
    (∀ (j : Json) (data : List (String × List (String × ℚ))),
      body = Body.json j → decodeNestedQMap j = some data →
      fetchExchangeRates (Transport.response status body)
        = Except.ok data) := by
  constructor
  · intro s₁ s₂
    cases body with
    | invalid => rfl
    | json j => rfl
  · intro j data hb hd
    subst hb
    simp [fetchExchangeRates, hd]

/-- Witness for C10: a rate body served with status 500 is decoded and
accepted. -/
theorem rate_fetch_ignores_status_witness :
    fetchExchangeRates (Transport.response 500
        (Body.json (Json.obj [("ethereum",
          Json.obj [("usd", Json.num 3000), ("aud", Json.num 4500)])])))
      = Except.ok [("ethereum", [("usd", 3000), ("aud", 4500)])] :=
  (rate_fetch_ignores_status 500
    (Body.json (Json.obj [("ethereum",
      Json.obj [("usd", Json.num 3000), ("aud", Json.num 4500)])]))).2
    _ _ rfl (by rfl)

/-- C7: the CoinGecko adapter decodes the documented sample body to
3000.5, and the Bitfinex adapter decodes the documented seven-element
sample to the value at index 6, 3100.25. -/
theorem sample_payloads_decode :
    parseResponse "CoinGecko"
        (Body.json (Json.obj [("ethereum",
          Json.obj [("usd", Json.num 3000.5)])]))
        = ParseOutcome.ok 3000.5 ∧
      parseResponse "Bitfinex"
        (Body.json (Json.arr [Json.num 1, Json.num 2, Json.num 3,
          Json.num 4, Json.num 5, Json.num 6, Json.num 3100.25]))
        = ParseOutcome.ok 3100.25 :=
  ⟨rfl, rfl⟩

/-- C5 (code bug): on a well-formed Kraken body whose per-pair price
list is empty, `parseResponse` faults — the unchecked `v.C[0]` read of
main.go line 138 — rather than returning a decode error, and the fault
propagates through `FetchPrice`; the Bitfinex short-list part of the
claim does hold: a list of fewer than 7 elements is a decode error. -/
theorem kraken_empty_list_faults :
    parseResponse "Kraken"
        (Body.json (Json.obj [("result",
          Json.obj [("XETHZUSD", Json.obj [("c", Json.arr [])])])]))
        = ParseOutcome.panic ∧
      FetchPrice "Kraken"
        (Transport.response 200
          (Body.json (Json.obj [("result",
            Json.obj [("XETHZUSD", Json.obj [("c", Json.arr [])])])])))
        = FetchOutcome.panic ∧
      parseResponse "Bitfinex" (Body.json (Json.arr [Json.num 1]))
        = ParseOutcome.err :=
  ⟨rfl, rfl, rfl⟩

/-- The collection step preserves, for every fetcher list that completes
without a fault: the outcome count, the source names in order, and the
success/failure split. -/
theorem runFetchers_spec (fetchers : List (String × Transport))
    (results : List PriceResult) (h : runFetchers fetchers = some results) :
    results.length = fetchers.length ∧
      results.map (fun r => r.name) = fetchers.map (fun f => f.1) ∧
      results.countP (fun r => r.err.isSome) = failedFetchCount fetchers ∧
      successCount results = fetchers.length - failedFetchCount fetchers := by
  induction fetchers generalizing results with
  | nil =>
    rw [runFetchers] at h
    cases h
    simp [failedFetchCount, successCount]
  | cons f fs ih =>
    rw [runFetchers] at h
    have hle : failedFetchCount fs ≤ fs.length := List.countP_le_length _
    cases hf : FetchPrice f.1 f.2 with
    | ok p =>
      rw [hf] at h
      obtain ⟨rs, hrs, hcons⟩ := Option.map_eq_some'.mp h
      obtain ⟨hlen, hnames, hfail, hsucc⟩ := ih rs hrs
      subst hcons
      have hff : failedFetchCount (f :: fs) = failedFetchCount fs := by
        simp [failedFetchCount, List.countP_cons, hf]
      refine ⟨by simp [hlen], by simp [hnames], ?_, ?_⟩
      · rw [hff]
        simpa [List.countP_cons] using hfail
      · rw [hff]
        have hsc : successCount (PriceResult.mk p none f.1 :: rs)
            = successCount rs + 1 := by
          simp [successCount, List.countP_cons]
        rw [hsc]
        simp only [List.length_cons]
        omega
    | err e =>
      rw [hf] at h
      obtain ⟨rs, hrs, hcons⟩ := Option.map_eq_some'.mp h
      obtain ⟨hlen, hnames, hfail, hsucc⟩ := ih rs hrs
      subst hcons
      have hff : failedFetchCount (f :: fs) = failedFetchCount fs + 1 := by
        simp [failedFetchCount, List.countP_cons, hf]
      refine ⟨by simp [hlen], by simp [hnames], ?_, ?_⟩
      · rw [hff]
        simp [List.countP_cons]
        omega
      · rw [hff]
        have hsc : successCount (PriceResult.mk 0 (some e) f.1 :: rs)
            = successCount rs := by
          simp [successCount, List.countP_cons]
        rw [hsc]
        simp only [List.length_cons]
        omega
    | panic =>
      rw [hf] at h
      exact absurd h (by simp)

/-- C3: for every non-empty fetcher list that completes without a fault,
the orchestrator produces exactly one PriceOutcome per adapter — same
count, same source names in order — with exactly N-M successes, where M
is the number of failing adapters; no outcome is dropped. -/
theorem orchestrator_complete (fetchers : List (String × Transport))
    (results : List PriceResult)
    (h : runFetchers fetchers = some results)
    (_hN : 1 ≤ fetchers.length) :
    results.length = fetchers.length ∧
      results.map (fun r => r.name) = fetchers.map (fun f => f.1) ∧
      successCount results = fetchers.length - failedFetchCount fetchers ∧
      results.countP (fun r => r.err.isSome) = failedFetchCount fetchers := by
  obtain ⟨h1, h2, h3, h4⟩ := runFetchers_spec fetchers results h
  exact ⟨h1, h2, h4, h3⟩

/-- Witness for C3: two adapters, one of which fails at transport level,
produce two outcomes with one success. -/
theorem orchestrator_complete_witness :
    ([PriceResult.mk 3000 none "CoinGecko",
      PriceResult.mk 0 (some Failure.NetworkFailure) "Bitstamp"] :
        List PriceResult).length = 2 ∧
      successCount
        [PriceResult.mk 3000 none "CoinGecko",
         PriceResult.mk 0 (some Failure.NetworkFailure) "Bitstamp"] = 1 := by
  have h := orchestrator_complete
    [("CoinGecko", Transport.response 200
        (Body.json (Json.obj [("ethereum",
          Json.obj [("usd", Json.num 3000)])]))),
     ("Bitstamp", Transport.failure)]
    [PriceResult.mk 3000 none "CoinGecko",
     PriceResult.mk 0 (some Failure.NetworkFailure) "Bitstamp"]
    (by rfl) (by decide)
  exact ⟨h.1.trans rfl, (h.2.2.1).trans rfl⟩

end AudToEth
